import Mathlib

/-!
The control interface client of wpa_supplicant-go: a shallow embedding of `connection.go`,
`ctrl_iface.go` and `events.go`.

* Go strings and byte slices are lists of bytes (`GoString`).
* A Go `error` is `Option Error`, `none` being `nil`.
* The daemon, the sockets and the file system are the `World`: for each kind of
  call it holds the outcomes of the calls still to come, in call order, and the
  `trace` of the calls made so far.  A function that makes a call the world has no
  outcome for returns `none`: that call never completes.
* The `select` of `Connection.write` and `Connection.read` between `ctx.Done()` and the
  result of the I/O call is an outcome of the world (`Race`), whatever the context is.
* The event handler acts on a state of the caller; what it does to the world (cancelling
  the context, say) shows in the outcomes of the calls that follow.
* An interface is one that `ConnectWithOptions` made: its `solicitedConn` is not nil.
-/

namespace WpaSupplicant

/-! ## Bytes and strings -/

/-- A Go `byte`. -/
abbrev Byte := Fin 256

/-- A Go `string` or `[]byte`: a sequence of bytes. -/
abbrev GoString := List Byte

/-- The bytes of a string literal of the source (its UTF-8 encoding). -/
def lit (s : String) : GoString :=
  s.toList.flatMap fun c => (String.utf8EncodeChar c).map fun b => Fin.ofNat b.toNat

/-! ## Errors -/

/-- Go error values: the two sentinels of package `context`, an error made by
`errors.New` or by `fmt.Errorf` without `%w` (its message), `*strconv.NumError`, and any
other error that wraps one (`Unwrap`), such as `*net.OpError`. -/
inductive Error where
  | DeadlineExceeded
  | Canceled
  | errorString (s : GoString)
  | NumError (Func : GoString) (Num : GoString) (Err : Error)
  | wrap (msg : GoString) (inner : Error)
  deriving DecidableEq, Repr

/-- Go `errors.Is(err, target)`: `err` or an error of its `Unwrap` chain is `target`. -/
def errorsIs : Error → Error → Bool
  | .NumError f n e, target => decide (Error.NumError f n e = target) || errorsIs e target
  | .wrap m e, target => decide (Error.wrap m e = target) || errorsIs e target
  | err, target => decide (err = target)

/-! ## `strconv.Atoi` (Go standard library) -/

/-- The size of Go `int` in bits. -/
def intSize : Nat := 64

/-- Go `string(b)` for a byte `b`: the UTF-8 encoding of the code point `b`. -/
def byteToString (b : Byte) : GoString :=
  if b.val < 0x80 then [b]
  else [Fin.ofNat (0xC0 + b.val / 64), Fin.ofNat (0x80 + b.val % 64)]

/-- Go `strconv.ErrSyntax`. -/
def ErrSyntax : Error := .errorString (lit "invalid syntax")

/-- Go `strconv.syntaxError(fn, str)`. -/
def syntaxError (fn str : GoString) : Error := .NumError fn str ErrSyntax

/-- The digit loop of the fast path of `strconv.Atoi`: each byte `ch` has the code of the
digit zero taken off it, as a byte; above 9 it is a syntax error (`none`), else
`n = n*10 + int(ch)`. -/
def atoiDigits : GoString → Int → Option Int
  | [], n => some n
  | ch :: rest, n =>
    let ch : Byte := ch - 48
    if ch > 9 then none else atoiDigits rest (n * 10 + (ch.val : Int))

/-- Go `strconv.ErrRange`. -/
def ErrRange : Error := .errorString (lit "value out of range")

/-- Go `strconv.rangeError(fn, str)`. -/
def rangeError (fn str : GoString) : Error := .NumError fn str ErrRange

/-- Go `strconv.lower(c)`, which sets bit 5 of `c` (the difference between the two cases of a letter). -/
def lower (c : Byte) : Byte := Fin.ofNat (c.val ||| 32)

/-- The digit loop of `strconv.ParseUint(s, 10, 0)` on a 64-bit `int`, where
`cutoff = maxUint64/10 + 1` and `maxVal = 1<<64 - 1`; `s0` is the whole argument. -/
def parseUintDigits (s0 : GoString) : GoString → Nat → Nat × Option Error
  | [], n => (n, none)
  | c :: rest, n =>
    let cutoff : Nat := (2 ^ 64 - 1) / 10 + 1
    let maxVal : Nat := 2 ^ 64 - 1
    let d : Option Nat :=
      if 48 ≤ c.val ∧ c.val ≤ 57 then some (c.val - 48)
      else if 97 ≤ (lower c).val ∧ (lower c).val ≤ 122 then some ((lower c).val - 97 + 10)
      else none
    match d with
    | none => (0, some (syntaxError (lit "ParseUint") s0))
    | some d =>
      if d ≥ 10 then (0, some (syntaxError (lit "ParseUint") s0))
      else if n ≥ cutoff then (maxVal, some (rangeError (lit "ParseUint") s0))
      else
        let n := n * 10 % 2 ^ 64
        let n1 := (n + d) % 2 ^ 64
        if n1 < n ∨ n1 > maxVal then (maxVal, some (rangeError (lit "ParseUint") s0))
        else parseUintDigits s0 rest n1

/-- Go `strconv.ParseUint(s, 10, 0)` on a 64-bit `int`. -/
def ParseUint (s : GoString) : Nat × Option Error :=
  if s = [] then (0, some (syntaxError (lit "ParseUint") s))
  else parseUintDigits s s 0

/-- Go `strconv.ParseInt(s, 10, 0)` on a 64-bit `int`. -/
def ParseInt (s : GoString) : Int × Option Error :=
  if s = [] then (0, some (syntaxError (lit "ParseInt") s))
  else
    let s0 := s
    let neg : Bool := s.head? = some 45
    let s := if s.head? = some 43 ∨ s.head? = some 45 then s.drop 1 else s
    let cutoff : Nat := 2 ^ 63
    match ParseUint s with
    | (un, some (.NumError _ _ err)) =>
      if err ≠ ErrRange then (0, some (.NumError (lit "ParseInt") s0 err))
      else if !neg ∧ un ≥ cutoff then ((cutoff : Int) - 1, some (rangeError (lit "ParseInt") s0))
      else if neg ∧ un > cutoff then (-(cutoff : Int), some (rangeError (lit "ParseInt") s0))
      else (if neg then -(un : Int) else un, none)
    | (un, _) =>
      if !neg ∧ un ≥ cutoff then ((cutoff : Int) - 1, some (rangeError (lit "ParseInt") s0))
      else if neg ∧ un > cutoff then (-(cutoff : Int), some (rangeError (lit "ParseInt") s0))
      else (if neg then -(un : Int) else un, none)

/-- Go `strconv.Atoi(s)` on a 64-bit `int`: the fast path for strings of 1 to 18 bytes,
`ParseInt(s, 10, 0)` for the others, its error renamed to `Atoi`. -/
def Atoi (s : GoString) : Int × Option Error :=
  let sLen := s.length
  if intSize = 32 ∧ (0 < sLen ∧ sLen < 10) ∨ intSize = 64 ∧ (0 < sLen ∧ sLen < 19) then
    let s0 := s
    let signed : Bool := s.head? = some 45 || s.head? = some 43
    let s := if signed then s.drop 1 else s
    if signed ∧ s.length < 1 then (0, some (syntaxError (lit "Atoi") s0))
    else
      match atoiDigits s 0 with
      | none => (0, some (syntaxError (lit "Atoi") s0))
      | some n => (if s0.head? = some 45 then -n else n, none)
  else
    match ParseInt s with
    | (i64, some (.NumError _ num err)) => (i64, some (.NumError (lit "Atoi") num err))
    | (i64, err) => (i64, err)

/-! ## Events (`events.go`) -/

/-- Go `type EventPriority int`. -/
abbrev EventPriority := Int

def EventPriorityMsgDump : EventPriority := 0
def EventPriorityDebug : EventPriority := 1
def EventPriorityInfo : EventPriority := 2
def EventPriorityWarning : EventPriority := 3
def EventPriorityError : EventPriority := 4

/-- An unsolicited message from wpa_supplicant. -/
structure Event where
  Priority : EventPriority
  Data : GoString
  deriving DecidableEq, Repr

/-- The body of the loop of `Listen` between the read and the call of the handler:
the `Event` built from the bytes `event` that `conn.read` returned. -/
def parseEvent (event : GoString) : Event :=
  let data := event
  let priority : Int := -1
  if 3 ≤ event.length ∧ event.getD 0 0 = 60 ∧ event.getD 2 0 = 62 then
    let priority := (Atoi (byteToString (event.getD 1 0))).1
    let data := data.drop 3
    { Priority := priority, Data := data }
  else
    { Priority := priority, Data := data }

/-! ## The world -/

/-- A `*net.UnixConn`: one bound and connected datagram socket. -/
structure UnixConn where
  id : Nat
  deriving DecidableEq, Repr

/-- A connection to the control interface socket (`type Connection struct { *net.UnixConn }`). -/
structure Connection where
  UnixConn : UnixConn
  deriving DecidableEq, Repr

/-- A `context.Context`: `context.Background()` or a context of the caller. -/
inductive Context where
  | Background
  | caller (id : Nat)
  deriving DecidableEq, Repr

/-- What the `select` of `Connection.write` and `Connection.read` receives first:
`ctx.Done()`, with the value of `ctx.Err()`, or the result `val`, `err` of the I/O call. -/
inductive Race (α : Type) where
  | ctxDone (err : Error)
  | done (val : α) (err : Option Error)
  deriving DecidableEq, Repr

/-- A call made on the world, or a call of the event handler. -/
inductive Action where
  | CreateTemp (pattern : GoString)
  | Remove (name : GoString)
  | DialUnix (laddr raddr : GoString)
  | Write (conn : UnixConn) (ctx : Context) (b : GoString)
  | Read (conn : UnixConn) (ctx : Context)
  | Close (conn : UnixConn)
  | Printf (format : GoString) (arg : Error)
  | Handler (event : Event)
  deriving DecidableEq, Repr

/-- The environment of the client. Each list holds the outcomes of the calls of one kind
still to come, in call order:
* `createTemps`: `os.CreateTemp`, the name of the file made or an error;
* `removes`: `os.Remove`;
* `dials`: `net.DialUnix`;
* `writes`: the race of `conn.Write(b)`, giving the count of bytes written, against the context;
* `reads`: the race of `conn.Read(buf)`, giving the datagram that arrived from the peer,
  against the context;
* `closes`: `conn.Close()`.
`trace` is the sequence of calls made so far. -/
structure World where
  createTemps : List (Except Error GoString)
  removes : List (Option Error)
  dials : List (Except Error UnixConn)
  writes : List (Race Nat)
  reads : List (Race GoString)
  closes : List (Option Error)
  trace : List Action

/-- Adds a call to the trace. -/
def World.record (w : World) (a : Action) : World :=
  { w with trace := w.trace ++ [a] }

/-- Go `log.Printf(format, arg)`. -/
def World.Printf (w : World) (format : GoString) (arg : Error) : World :=
  w.record (.Printf format arg)

/-- Go `net.UnixConn.Read(buf)` on a datagram socket when the datagram `dg` arrives: the bytes
of `dg` are copied into `buf` from its start, those that do not fit are dropped; gives the
count of bytes copied and `buf` after the call. -/
def UnixConn.Read : GoString → GoString → Nat × GoString
  | d :: dg, _ :: buf =>
    let r := UnixConn.Read dg buf
    (r.1 + 1, d :: r.2)
  | _, buf => (0, buf)

/-- The error that the `select` of `Connection.write` or `Connection.read` ends with. -/
def Race.err {α : Type} : Race α → Option Error
  | .ctxDone err => some err
  | .done _ err => err

/-- The events the handler was called with, in call order, in a trace. -/
def handlerCalls (trace : List Action) : List Event :=
  trace.filterMap fun a => match a with
    | .Handler ev => some ev
    | _ => none

/-- Whether a call writes the command `DETACH`. -/
def isDetachWrite : Action → Bool
  | .Write _ _ b => decide (b = lit "DETACH")
  | _ => false

/-! ## `connection.go` -/

/-- Go `connect(ctrlIfacePath, tempFilePattern)`. -/
def connect (ctrlIfacePath tempFilePattern : GoString) (w : World) :
    Option (Except Error Connection × World) :=
  match w.createTemps with
  | [] => none
  | f :: createTemps =>
    let w := { w with createTemps := createTemps }.record (.CreateTemp tempFilePattern)
    match f with
    | .error err => some (.error err, w)
    | .ok localPath =>
      match w.removes with
      | [] => none
      | r :: removes =>
        let w := { w with removes := removes }.record (.Remove localPath)
        match r with
        | some err => some (.error err, w)
        | none =>
          match w.dials with
          | [] => none
          | d :: dials =>
            let w := { w with dials := dials }.record (.DialUnix localPath ctrlIfacePath)
            match d with
            | .error err => some (.error err, w)
            | .ok unixConn => some (.ok { UnixConn := unixConn }, w)

/-- Go `conn.write(ctx, b)`. -/
def Connection.write (conn : Connection) (ctx : Context) (b : GoString) (w : World) :
    Option ((Nat × Option Error) × World) :=
  match w.writes with
  | [] => none
  | o :: writes =>
    let w := { w with writes := writes }.record (.Write conn.UnixConn ctx b)
    match o with
    | .ctxDone err => some ((0, some err), w)
    | .done wrote err => some ((wrote, err), w)

/-- Go `conn.read(ctx)`. -/
def Connection.read (conn : Connection) (ctx : Context) (w : World) :
    Option ((GoString × Option Error) × World) :=
  match w.reads with
  | [] => none
  | o :: reads =>
    let buf : GoString := List.replicate 2048 0
    let w := { w with reads := reads }.record (.Read conn.UnixConn ctx)
    match o with
    | .ctxDone err => some (([], some err), w)
    | .done dg err =>
      let (read, buf) := UnixConn.Read dg buf
      some ((buf.take read, err), w)

/-- Go `conn.Close()`, the `Close` of the embedded `*net.UnixConn`. -/
def Connection.Close (conn : Connection) (w : World) : Option (Option Error × World) :=
  match w.closes with
  | [] => none
  | c :: closes => some (c, { w with closes := closes }.record (.Close conn.UnixConn))

/-- Go `conn.SendRequest(ctx, cmd)`. -/
def Connection.SendRequest (conn : Connection) (ctx : Context) (cmd : GoString) (w : World) :
    Option ((GoString × Option Error) × World) :=
  match conn.write ctx cmd w with
  | none => none
  | some ((_, some err), w) => some (([], some err), w)
  | some ((_, none), w) =>
    match conn.read ctx w with
    | none => none
    | some ((_, some err), w) => some (([], some err), w)
    | some ((res, none), w) => some ((res, none), w)

/-! ## `ctrl_iface.go` -/

/-- A control interface to a wpa_supplicant/hostapd daemon. The mutex is left out: the
calls of this model run one after the other. -/
structure ControlInterface where
  ctrlIfacePath : GoString
  tempFilePattern : GoString
  solicitedConn : Connection
  deriving DecidableEq, Repr

/-- Holds options to construct a `ControlInterface`. -/
structure ConnectionOptions where
  TemporaryFilePattern : GoString

def DefaultConnectionOptions : ConnectionOptions :=
  { TemporaryFilePattern := lit "wpa_supplicant-go-ctrl" }

/-- Go `ConnectWithOptions(controlInterfacePath, opts)`. -/
def ConnectWithOptions (controlInterfacePath : GoString) (opts : ConnectionOptions) (w : World) :
    Option (Except Error ControlInterface × World) :=
  match connect controlInterfacePath opts.TemporaryFilePattern w with
  | none => none
  | some (.error err, w) => some (.error err, w)
  | some (.ok conn, w) =>
    some (.ok { ctrlIfacePath := controlInterfacePath
                tempFilePattern := opts.TemporaryFilePattern
                solicitedConn := conn }, w)

/-- Go `Connect(controlInterfacePath)`. -/
def Connect (controlInterfacePath : GoString) (w : World) :
    Option (Except Error ControlInterface × World) :=
  ConnectWithOptions controlInterfacePath DefaultConnectionOptions w

/-- Whether `err` is `context.DeadlineExceeded` or `context.Canceled`, the test of
`ControlInterface.SendRequest`. -/
def isCancellation (err : Error) : Bool :=
  errorsIs err .DeadlineExceeded || errorsIs err .Canceled

/-- Go `ctrlIface.SendRequest(ctx, cmd)`: the reply and the error, and the interface and the
world after the call. -/
def ControlInterface.SendRequest (ctrlIface : ControlInterface) (ctx : Context) (cmd : GoString)
    (w : World) : Option ((GoString × Option Error) × ControlInterface × World) :=
  match ctrlIface.solicitedConn.SendRequest ctx cmd w with
  | none => none
  | some ((res, none), w) => some ((res, none), ctrlIface, w)
  | some ((_, some err), w) =>
    if isCancellation err then
      match ctrlIface.solicitedConn.Close w with
      | none => none
      | some (closeErr, w) =>
        let w := match closeErr with
          | some e => w.Printf (lit "error closing connection: %s\n") e
          | none => w
        match connect ctrlIface.ctrlIfacePath ctrlIface.tempFilePattern w with
        | none => none
        | some (.error newConnErr, w) =>
          let w := match closeErr with
            | some _ => w.Printf (lit "error opening new connection: %s\n") newConnErr
            | none => w
          some (([], some err), ctrlIface, w)
        | some (.ok newConn, w) =>
          some (([], some err), { ctrlIface with solicitedConn := newConn }, w)
    else some (([], some err), ctrlIface, w)

/-- Go `ctrlIface.Close()`. -/
def ControlInterface.Close (ctrlIface : ControlInterface) (w : World) :
    Option (Option Error × World) :=
  ctrlIface.solicitedConn.Close w

/-! ## `events.go`: `Listen` -/

/-- Go `fmt.Errorf("failed to attach to events: %s", res)`. -/
def attachError (res : GoString) : Error :=
  .errorString (lit "failed to attach to events: " ++ res)

/-- The `for` loop of `Listen`: gives the error that ends it. The handler acts on a state
`υ` of the caller, and each of its calls is put on the trace. `fuel` bounds the count of
reads; `Listen` gives one more than the count of outcomes the world holds, so the loop
stops for want of an outcome before it does for want of fuel. -/
def Listen.loop {υ : Type} (conn : Connection) (ctx : Context) (handler : Event → υ → υ) :
    Nat → υ → World → Option (Error × υ × World)
  | 0, _, _ => none
  | fuel + 1, u, w =>
    match conn.read ctx w with
    | none => none
    | some ((_, some err), w) => some (err, u, w)
    | some ((event, none), w) =>
      let ev := parseEvent event
      Listen.loop conn ctx handler fuel (handler ev u) (w.record (.Handler ev))

/-- Go `ctrlIface.Listen(ctx, handler)`: the error returned, and the state of the caller and
the world after the call. -/
def ControlInterface.Listen {υ : Type} (ctrlIface : ControlInterface) (ctx : Context)
    (handler : Event → υ → υ) (u : υ) (w : World) : Option (Option Error × υ × World) :=
  match connect ctrlIface.ctrlIfacePath ctrlIface.tempFilePattern w with
  | none => none
  | some (.error err, w) => some (some err, u, w)
  | some (.ok conn, w) =>
    -- defer conn.Close()
    let deferClose := fun (ret : Option Error) (u : υ) (w : World) =>
      match conn.Close w with
      | none => none
      | some (_, w) => some (ret, u, w)
    match conn.SendRequest ctx (lit "ATTACH") w with
    | none => none
    | some ((_, some err), w) => deferClose (some err) u w
    | some ((res, none), w) =>
      if res ≠ lit "OK\n" then deferClose (some (attachError res)) u w
      else
        match Listen.loop conn ctx handler (w.reads.length + 1) u w with
        | none => none
        | some (err, u, w) =>
          -- the deferred DETACH
          match conn.write .Background (lit "DETACH") w with
          | none => none
          | some ((_, detachErr), w) =>
            let w := match detachErr with
              | some e => w.Printf (lit "error sending DETACH request: %s\n") e
              | none => w
            deferClose (some err) u w

/-! ## Example runs -/

/-- An interface connected to the daemon of `wlan0` on socket 1. -/
def exampleInterface : ControlInterface :=
  { ctrlIfacePath := lit "/run/wpa_supplicant/wlan0"
    tempFilePattern := lit "wpa_supplicant-go-ctrl"
    solicitedConn := ⟨⟨1⟩⟩ }

/-- A world with no outcome for any call. -/
def World.silent : World :=
  { createTemps := [], removes := [], dials := [], writes := [], reads := [], closes := [],
    trace := [] }

/-- A handler that keeps the events it is given. -/
def collect (ev : Event) (received : List Event) : List Event := received ++ [ev]

/-- An echoing peer answers `PING`. -/
def echoWorld : World :=
  { World.silent with writes := [.done 4 none], reads := [.done (lit "PING") none] }

/-- A command of 2049 bytes. -/
def longCommand : GoString := List.replicate 2049 65

/-- An echoing peer answers `longCommand`. -/
def longEchoWorld : World :=
  { World.silent with writes := [.done 2049 none], reads := [.done longCommand none] }

/-- The deadline of the first request passes before the reply; a new socket, 2, can be
connected, and the peer answers the second request. -/
def timeoutWorld : World :=
  { World.silent with
      writes := [.done 4 none, .done 4 none]
      reads := [.ctxDone .DeadlineExceeded, .done (lit "ECHO") none]
      closes := [none]
      createTemps := [.ok (lit "/tmp/wpa_supplicant-go-ctrl2")]
      removes := [none]
      dials := [.ok ⟨2⟩] }

/-- The error of a write when no daemon listens. -/
def refusedErr : Error :=
  .wrap (lit "write unixgram") (.errorString (lit "connection refused"))

/-- The write of the request fails. -/
def refusedWorld : World :=
  { World.silent with writes := [.done 0 (some refusedErr)] }

/-- The error of a write on a closed socket. -/
def closedErr : Error :=
  .wrap (lit "write unixgram") (.errorString (lit "use of closed network connection"))

/-- The error of `net.DialUnix` when the socket of the daemon is gone. -/
def dialErr : Error :=
  .wrap (lit "dial unixgram") (.errorString (lit "connect: no such file or directory"))

/-- The deadline of the first request passes before the reply, the daemon is gone when the
client connects again, and the second request is written on the closed socket. -/
def lostDaemonWorld : World :=
  { World.silent with
      writes := [.done 4 none, .done 0 (some closedErr)]
      reads := [.ctxDone .DeadlineExceeded]
      closes := [none]
      createTemps := [.ok (lit "/tmp/wpa_supplicant-go-ctrl2")]
      removes := [none]
      dials := [.error dialErr] }

/-- Two calls of `SendRequest` on one interface, one after the other: the results of both and
the calls that the second one made. -/
def sendTwice (ctrlIface : ControlInterface) (ctx : Context) (cmd1 cmd2 : GoString) (w : World) :
    Option ((GoString × Option Error) × (GoString × Option Error) × List Action) :=
  match ctrlIface.SendRequest ctx cmd1 w with
  | none => none
  | some (r1, ctrlIface, w1) =>
    match ctrlIface.SendRequest ctx cmd2 w1 with
    | none => none
    | some (r2, _, w2) => some (r1, r2, w2.trace.drop w1.trace.length)

/-- The peer answers `ATTACH` with `FAIL`. -/
def attachRefusedWorld : World :=
  { World.silent with
      createTemps := [.ok (lit "/tmp/wpa_supplicant-go-ctrl2")]
      removes := [none]
      dials := [.ok ⟨2⟩]
      writes := [.done 6 none]
      reads := [.done (lit "FAIL\n") none]
      closes := [none] }

/-- The peer acknowledges `ATTACH` and sends three events, then the context is cancelled. -/
def eventsWorld : World :=
  { World.silent with
      createTemps := [.ok (lit "/tmp/wpa_supplicant-go-ctrl2")]
      removes := [none]
      dials := [.ok ⟨2⟩]
      writes := [.done 6 none, .done 6 none]
      reads := [.done (lit "OK\n") none, .done (lit "<1>TEST") none,
                .done (lit "<3>SCAN_RESULTS") none, .done (lit "SCAN") none, .ctxDone .Canceled]
      closes := [none] }

/-- As `eventsWorld`, but the write of `DETACH` and the close both fail. -/
def failingDetachWorld : World :=
  { eventsWorld with
      writes := [.done 6 none, .done 0 (some closedErr)]
      closes := [some closedErr] }

/-! ## Lemmas on the calls of `connection.go` -/

theorem UnixConn.Read_replicate (dg : GoString) :
    ∀ k : Nat, (UnixConn.Read dg (List.replicate k 0)).2.take
      (UnixConn.Read dg (List.replicate k 0)).1 = dg.take k := by
  induction dg with
  | nil => intro k; cases k <;> simp [UnixConn.Read]
  | cons d dg ih =>
    intro k
    cases k with
    | zero => simp [UnixConn.Read]
    | succ k => simp [UnixConn.Read, List.replicate_succ, ih k]

theorem UnixConn.Read_take (dg : GoString) :
    (UnixConn.Read dg (List.replicate 2048 0)).2.take (UnixConn.Read dg (List.replicate 2048 0)).1
      = dg.take 2048 :=
  UnixConn.Read_replicate dg 2048

theorem Connection.read_done (conn : Connection) (ctx : Context) (w : World) (dg : GoString)
    (err : Option Error) (reads : List (Race GoString)) (h : w.reads = .done dg err :: reads) :
    conn.read ctx w =
      some ((dg.take 2048, err),
            { w with reads := reads, trace := w.trace ++ [.Read conn.UnixConn ctx] }) := by
  obtain ⟨a, b, c, d, e, f, g⟩ := w
  subst h
  simp only [Connection.read, World.record]
  rw [← UnixConn.Read_take dg]

theorem Connection.read_ctxDone (conn : Connection) (ctx : Context) (w : World) (err : Error)
    (reads : List (Race GoString)) (h : w.reads = .ctxDone err :: reads) :
    conn.read ctx w =
      some (([], some err),
            { w with reads := reads, trace := w.trace ++ [.Read conn.UnixConn ctx] }) := by
  obtain ⟨a, b, c, d, e, f, g⟩ := w
  subst h
  simp only [Connection.read, World.record]

theorem Connection.write_done (conn : Connection) (ctx : Context) (b : GoString) (w : World)
    (n : Nat) (err : Option Error) (writes : List (Race Nat))
    (h : w.writes = .done n err :: writes) :
    conn.write ctx b w =
      some ((n, err),
            { w with writes := writes, trace := w.trace ++ [.Write conn.UnixConn ctx b] }) := by
  obtain ⟨a, b, c, d, e, f, g⟩ := w
  subst h
  simp [Connection.write, World.record]

theorem Connection.write_ctxDone (conn : Connection) (ctx : Context) (b : GoString) (w : World)
    (err : Error) (writes : List (Race Nat)) (h : w.writes = .ctxDone err :: writes) :
    conn.write ctx b w =
      some ((0, some err),
            { w with writes := writes, trace := w.trace ++ [.Write conn.UnixConn ctx b] }) := by
  obtain ⟨a, b, c, d, e, f, g⟩ := w
  subst h
  simp [Connection.write, World.record]

theorem Connection.Close_cons (conn : Connection) (w : World) (c : Option Error)
    (closes : List (Option Error)) (h : w.closes = c :: closes) :
    conn.Close w =
      some (c, { w with closes := closes, trace := w.trace ++ [.Close conn.UnixConn] }) := by
  obtain ⟨a, b, c, d, e, f, g⟩ := w
  subst h
  simp [Connection.Close, World.record]

theorem connect_ok (ctrlIfacePath tempFilePattern : GoString) (w : World) (name : GoString)
    (uc : UnixConn) (cts : List (Except Error GoString)) (rms : List (Option Error))
    (dls : List (Except Error UnixConn))
    (hct : w.createTemps = .ok name :: cts) (hrm : w.removes = none :: rms)
    (hdl : w.dials = .ok uc :: dls) :
    connect ctrlIfacePath tempFilePattern w =
      some (.ok ⟨uc⟩,
        { w with createTemps := cts, removes := rms, dials := dls,
                 trace := w.trace ++ [.CreateTemp tempFilePattern, .Remove name,
                                      .DialUnix name ctrlIfacePath] }) := by
  obtain ⟨a, b, c, d, e, f, g⟩ := w
  subst hct hrm hdl
  simp [connect, World.record]

/-- A connect keeps the calls made before it on the trace. -/
theorem connect_trace (a b : GoString) (v v2 : World) (x : Except Error Connection)
    (hcn : connect a b v = some (x, v2)) : ∀ act ∈ v.trace, act ∈ v2.trace := by
  intro act hact
  obtain ⟨cts, rms, dls, wr, rd, cl, tr⟩ := v
  simp only at hact
  rcases cts with _ | ⟨e | name, cts⟩
  · simp [connect] at hcn
  · simp only [connect, World.record, Option.some.injEq, Prod.mk.injEq] at hcn
    obtain ⟨-, rfl⟩ := hcn
    simp [hact]
  · rcases rms with _ | ⟨_ | e, rms⟩
    · simp [connect, World.record] at hcn
    · rcases dls with _ | ⟨e | uc, dls⟩
      · simp [connect, World.record] at hcn
      · simp only [connect, World.record, Option.some.injEq, Prod.mk.injEq] at hcn
        obtain ⟨-, rfl⟩ := hcn
        simp [hact]
      · simp only [connect, World.record, Option.some.injEq, Prod.mk.injEq] at hcn
        obtain ⟨-, rfl⟩ := hcn
        simp [hact]
    · simp only [connect, World.record, Option.some.injEq, Prod.mk.injEq] at hcn
      obtain ⟨-, rfl⟩ := hcn
      simp [hact]

theorem Connection.exchange_healthy (conn : Connection) (ctx : Context) (cmd : GoString)
    (w : World) (wrote : Nat) (dg : GoString) (wrs : List (Race Nat)) (rds : List (Race GoString))
    (hw : w.writes = .done wrote none :: wrs) (hr : w.reads = .done dg none :: rds) :
    conn.SendRequest ctx cmd w =
      some ((dg.take 2048, none),
        { w with writes := wrs, reads := rds,
                 trace := w.trace ++
                   [.Write conn.UnixConn ctx cmd, .Read conn.UnixConn ctx] }) := by
  unfold Connection.SendRequest
  rw [Connection.write_done conn ctx cmd w wrote none wrs hw]
  simp only
  rw [Connection.read_done conn ctx _ dg none rds (by simpa using hr)]
  simp

theorem Connection.write_frame (conn : Connection) (ctx : Context) (b : GoString) (w w1 : World)
    (res : Nat × Option Error) (h : conn.write ctx b w = some (res, w1)) :
    w1.createTemps = w.createTemps ∧ w1.removes = w.removes ∧ w1.dials = w.dials ∧
      w1.closes = w.closes ∧ w1.reads = w.reads ∧
      w1.trace = w.trace ++ [.Write conn.UnixConn ctx b] := by
  unfold Connection.write at h
  split at h
  · simp at h
  · split at h <;> simp [World.record] at h <;> obtain ⟨-, rfl⟩ := h <;> simp

theorem Connection.read_frame (conn : Connection) (ctx : Context) (w w1 : World)
    (res : GoString × Option Error) (h : conn.read ctx w = some (res, w1)) :
    w1.createTemps = w.createTemps ∧ w1.removes = w.removes ∧ w1.dials = w.dials ∧
      w1.closes = w.closes ∧ w1.writes = w.writes ∧
      w1.trace = w.trace ++ [.Read conn.UnixConn ctx] := by
  unfold Connection.read at h
  split at h
  · simp at h
  · simp only [World.record] at h
    split at h <;> simp only [Option.some.injEq, Prod.mk.injEq] at h <;>
      obtain ⟨-, rfl⟩ := h <;> simp

/-- An exchange makes no call but its write and, when the write went well, its read. -/
theorem Connection.SendRequest_frame (conn : Connection) (ctx : Context) (cmd : GoString)
    (w w1 : World) (res : GoString × Option Error)
    (h : conn.SendRequest ctx cmd w = some (res, w1)) :
    w1.createTemps = w.createTemps ∧ w1.removes = w.removes ∧ w1.dials = w.dials ∧
      w1.closes = w.closes ∧
      (w1.trace = w.trace ++ [.Write conn.UnixConn ctx cmd] ∨
        w1.trace = w.trace ++ [.Write conn.UnixConn ctx cmd, .Read conn.UnixConn ctx]) := by
  unfold Connection.SendRequest at h
  split at h
  · simp at h
  · rename_i hw
    have fw := Connection.write_frame _ _ _ _ _ _ hw
    simp only [Option.some.injEq, Prod.mk.injEq] at h
    obtain ⟨-, rfl⟩ := h
    simp [fw]
  · rename_i hw
    have fw := Connection.write_frame _ _ _ _ _ _ hw
    split at h
    · simp at h
    · rename_i hr
      have fr := Connection.read_frame _ _ _ _ _ hr
      simp only [Option.some.injEq, Prod.mk.injEq] at h
      obtain ⟨-, rfl⟩ := h
      simp [fw, fr]
    · rename_i hr
      have fr := Connection.read_frame _ _ _ _ _ hr
      simp only [Option.some.injEq, Prod.mk.injEq] at h
      obtain ⟨-, rfl⟩ := h
      simp [fw, fr]

/-- A request whose write and read both go well gives the head of the datagram that arrived. -/
theorem ControlInterface.request_healthy (ctrlIface : ControlInterface) (ctx : Context)
    (cmd : GoString) (w : World) (wrote : Nat) (dg : GoString) (wrs : List (Race Nat))
    (rds : List (Race GoString))
    (hw : w.writes = .done wrote none :: wrs) (hr : w.reads = .done dg none :: rds) :
    ctrlIface.SendRequest ctx cmd w =
      some ((dg.take 2048, none), ctrlIface,
        { w with writes := wrs, reads := rds,
                 trace := w.trace ++ [.Write ctrlIface.solicitedConn.UnixConn ctx cmd,
                                      .Read ctrlIface.solicitedConn.UnixConn ctx] }) := by
  unfold ControlInterface.SendRequest
  rw [Connection.exchange_healthy _ ctx cmd w wrote dg wrs rds hw hr]

/-- A request that fails with an error outside the cancellation class returns right after
its exchange. -/
theorem ControlInterface.SendRequest_other (ctrlIface : ControlInterface) (ctx : Context)
    (cmd : GoString) (w w1 : World) (res : GoString) (err : Error)
    (hx : ctrlIface.solicitedConn.SendRequest ctx cmd w = some ((res, some err), w1))
    (hc : isCancellation err = false) :
    ctrlIface.SendRequest ctx cmd w = some (([], some err), ctrlIface, w1) := by
  unfold ControlInterface.SendRequest
  rw [hx]
  simp [hc]

/-- Whatever a request returns, its error is the error of the exchange on the transport the
interface held. -/
theorem ControlInterface.SendRequest_error (ctrlIface : ControlInterface) (ctx : Context)
    (cmd : GoString) (w : World) (r : GoString × Option Error) (after : ControlInterface)
    (w2 : World) (h : ctrlIface.SendRequest ctx cmd w = some (r, after, w2)) :
    ∃ res w1, ctrlIface.solicitedConn.SendRequest ctx cmd w = some ((res, r.2), w1) := by
  unfold ControlInterface.SendRequest at h
  split at h
  · simp at h
  · rename_i res w1 hx
    simp only [Option.some.injEq, Prod.mk.injEq] at h
    obtain ⟨rfl, -, -⟩ := h
    exact ⟨res, w1, hx⟩
  · rename_i res err w1 hx
    refine ⟨res, w1, ?_⟩
    have hr : r.2 = some err := by
      split at h
      · cases hcl : ctrlIface.solicitedConn.Close w1 with
        | none => simp [hcl] at h
        | some p =>
          obtain ⟨closeErr, wc⟩ := p
          simp only [hcl] at h
          cases closeErr with
          | none =>
            simp only at h
            cases hcn : connect ctrlIface.ctrlIfacePath ctrlIface.tempFilePattern wc with
            | none => simp [hcn] at h
            | some q =>
              obtain ⟨ce | nc, wq⟩ := q <;> simp only [hcn, Option.some.injEq, Prod.mk.injEq] at h <;>
                obtain ⟨rfl, -⟩ := h <;> rfl
          | some ce0 =>
            simp only at h
            cases hcn : connect ctrlIface.ctrlIfacePath ctrlIface.tempFilePattern
                (wc.Printf (lit "error closing connection: %s\n") ce0) with
            | none => simp [hcn] at h
            | some q =>
              obtain ⟨ce | nc, wq⟩ := q <;> simp only [hcn, Option.some.injEq, Prod.mk.injEq] at h <;>
                obtain ⟨rfl, -⟩ := h <;> rfl
      · simp only [Option.some.injEq, Prod.mk.injEq] at h
        obtain ⟨rfl, -⟩ := h
        rfl
    rw [hr]
    exact hx

/-! ## Lemmas on `Listen` -/

theorem lit_OK_take : (lit "OK\n").take 2048 = lit "OK\n" := by decide

/-- The loop of `Listen` on a world whose reads give the datagrams `dgs` and then fail. -/
theorem Listen.loop_run {υ : Type} (conn : Connection) (ctx : Context) (handler : Event → υ → υ)
    (last : Race GoString) (e : Error) (rds : List (Race GoString))
    (hlast : last = .ctxDone e ∨ ∃ dg, last = .done dg (some e)) :
    ∀ (dgs : List GoString) (fuel : Nat) (u : υ) (w : World),
      w.reads = dgs.map (fun d => Race.done d none) ++ last :: rds →
      dgs.length < fuel →
      Listen.loop conn ctx handler fuel u w =
        some (e, (dgs.map fun d => parseEvent (d.take 2048)).foldl (fun u ev => handler ev u) u,
          { w with
              reads := rds,
              trace := w.trace ++
                (dgs.flatMap fun d =>
                  [.Read conn.UnixConn ctx, .Handler (parseEvent (d.take 2048))]) ++
                [.Read conn.UnixConn ctx] }) := by
  intro dgs
  induction dgs with
  | nil =>
    intro fuel u w hr hf
    obtain ⟨fuel, rfl⟩ : ∃ k, fuel = k + 1 := ⟨fuel - 1, by simp at hf; omega⟩
    unfold Listen.loop
    rcases hlast with rfl | ⟨dg, rfl⟩
    · rw [Connection.read_ctxDone conn ctx w e rds (by simpa using hr)]
      simp
    · rw [Connection.read_done conn ctx w dg (some e) rds (by simpa using hr)]
      simp
  | cons d dgs ih =>
    intro fuel u w hr hf
    obtain ⟨fuel, rfl⟩ : ∃ k, fuel = k + 1 := ⟨fuel - 1, by simp at hf; omega⟩
    unfold Listen.loop
    rw [Connection.read_done conn ctx w d none
      (dgs.map (fun d => Race.done d none) ++ last :: rds) (by simpa using hr)]
    simp only
    rw [ih fuel _ _ (by simp [World.record]) (by simpa using hf)]
    simp [World.record]

/-- The loop of `Listen` never stops for want of fuel: from one more than the count of read
outcomes of the world on, the fuel does not change its result. -/
theorem Listen.loop_fuel {υ : Type} (conn : Connection) (ctx : Context) (handler : Event → υ → υ) :
    ∀ (fuel fuel2 : Nat) (u : υ) (w : World), w.reads.length < fuel → w.reads.length < fuel2 →
      Listen.loop conn ctx handler fuel u w = Listen.loop conn ctx handler fuel2 u w := by
  intro fuel
  induction fuel with
  | zero => intro fuel2 u w h; omega
  | succ fuel ih =>
    intro fuel2 u w h h2
    obtain ⟨fuel2, rfl⟩ : ∃ k, fuel2 = k + 1 := ⟨fuel2 - 1, by omega⟩
    unfold Listen.loop
    match hr : w.reads with
    | [] => simp [Connection.read, hr]
    | .ctxDone e :: rest => rw [Connection.read_ctxDone conn ctx w e rest hr]
    | .done dg (some e) :: rest => rw [Connection.read_done conn ctx w dg (some e) rest hr]
    | .done dg none :: rest =>
      rw [Connection.read_done conn ctx w dg none rest hr]
      simp only
      rw [hr] at h h2
      exact ih fuel2 _ _ (by simp [World.record] at h ⊢; omega)
        (by simp [World.record] at h2 ⊢; omega)

/-- A whole run of `Listen` that reaches the loop: the peer acknowledges `ATTACH`, the reads
give the datagrams `dgs` and then fail with `e`. -/
theorem Listen_run {υ : Type} (ctrlIface : ControlInterface) (ctx : Context)
    (handler : Event → υ → υ) (u : υ) (w : World) (name : GoString) (uc : UnixConn)
    (cts : List (Except Error GoString)) (rms : List (Option Error))
    (dls : List (Except Error UnixConn)) (wrote : Nat) (detach : Race Nat) (wrs : List (Race Nat))
    (dgs : List GoString) (last : Race GoString) (e : Error) (rds : List (Race GoString))
    (c : Option Error) (cls : List (Option Error))
    (hct : w.createTemps = .ok name :: cts) (hrm : w.removes = none :: rms)
    (hdl : w.dials = .ok uc :: dls)
    (hw : w.writes = .done wrote none :: detach :: wrs)
    (hr : w.reads =
      .done (lit "OK\n") none :: (dgs.map (fun d => Race.done d none) ++ last :: rds))
    (hlast : last.err = some e) (hcl : w.closes = c :: cls) :
    ctrlIface.Listen ctx handler u w =
      some (some e,
        (dgs.map fun d => parseEvent (d.take 2048)).foldl (fun u ev => handler ev u) u,
        { createTemps := cts, removes := rms, dials := dls, writes := wrs, reads := rds,
          closes := cls,
          trace := w.trace ++
            [.CreateTemp ctrlIface.tempFilePattern, .Remove name,
             .DialUnix name ctrlIface.ctrlIfacePath,
             .Write uc ctx (lit "ATTACH"), .Read uc ctx] ++
            (dgs.flatMap fun d => [.Read uc ctx, .Handler (parseEvent (d.take 2048))]) ++
            [.Read uc ctx, .Write uc .Background (lit "DETACH")] ++
            detach.err.toList.map (Action.Printf (lit "error sending DETACH request: %s\n")) ++
            [.Close uc] }) := by
  have hlast2 : last = .ctxDone e ∨ ∃ dg, last = .done dg (some e) := by
    cases last with
    | ctxDone e2 => left; simp [Race.err] at hlast; rw [hlast]
    | done dg err => right; simp [Race.err] at hlast; exact ⟨dg, by rw [hlast]⟩
  unfold ControlInterface.Listen
  rw [connect_ok _ _ w name uc cts rms dls hct hrm hdl]
  simp only
  rw [Connection.exchange_healthy ⟨uc⟩ ctx (lit "ATTACH") _ wrote (lit "OK\n") (detach :: wrs)
    (dgs.map (fun d => Race.done d none) ++ last :: rds) (by simpa using hw) (by simpa using hr)]
  simp only [lit_OK_take, ne_eq, not_true_eq_false, if_false]
  rw [Listen.loop_run ⟨uc⟩ ctx handler last e rds hlast2 dgs _ u _ rfl (by simp; omega)]
  simp only
  cases detach with
  | ctxDone de =>
    rw [Connection.write_ctxDone ⟨uc⟩ _ _ _ de wrs rfl]
    simp only [World.Printf, World.record]
    rw [Connection.Close_cons ⟨uc⟩ _ c cls (by simpa using hcl)]
    simp [Race.err]
  | done n derr =>
    rw [Connection.write_done ⟨uc⟩ _ _ _ n derr wrs rfl]
    cases derr with
    | none =>
      simp only
      rw [Connection.Close_cons ⟨uc⟩ _ c cls (by simpa using hcl)]
      simp [Race.err]
    | some de =>
      simp only [World.Printf, World.record]
      rw [Connection.Close_cons ⟨uc⟩ _ c cls (by simpa using hcl)]
      simp [Race.err]

/-! ## Lemmas on the parsing of events -/

set_option maxRecDepth 100000 in
/-- What `strconv.Atoi(string(b))` gives for each byte `b`: the digit, or 0 with an error. -/
theorem Atoi_byteToString (b : Byte) :
    (Atoi (byteToString b)).1 = if 48 ≤ b.val ∧ b.val ≤ 57 then (b.val : Int) - 48 else 0 := by
  revert b; decide

theorem parseEvent_cons3 (a b c : Byte) (rest : GoString) :
    parseEvent (a :: b :: c :: rest) =
      if a = 60 ∧ c = 62 then ⟨(Atoi (byteToString b)).1, rest⟩
      else ⟨-1, a :: b :: c :: rest⟩ := by
  simp [parseEvent]

theorem parseEvent_short (event : GoString) (h : event.length < 3) :
    parseEvent event = ⟨-1, event⟩ := by
  simp [parseEvent]; omega

/-! ## Event parsing -/

/-- C1: an event whose first byte is `<`, whose second byte `d` is an ASCII digit and whose
third byte is `>` (so it has at least 3 bytes) is given to the handler with the numeric value
of `d` as priority and the event without its 3 first bytes as data. -/
theorem parseEvent_framed (event : GoString) (d : Byte)
    (h0 : event[0]? = some 60) (h1 : event[1]? = some d) (h2 : event[2]? = some 62)
    (hd : 48 ≤ d.val ∧ d.val ≤ 57) :
    parseEvent event = { Priority := (d.val : Int) - 48, Data := event.drop 3 } := by
  match event, h0, h1, h2 with
  | a :: b :: c :: rest, h0, h1, h2 =>
    simp only [List.getElem?_cons_zero, List.getElem?_cons_succ, Option.some.injEq] at h0 h1 h2
    subst h0 h1 h2
    rw [parseEvent_cons3, Atoi_byteToString]
    simp [hd]

/-- C1 on the framed events of the test: `<1>TEST` and `<3>SCAN_RESULTS`. -/
theorem parseEvent_framed_witness :
    parseEvent (lit "<1>TEST") = { Priority := EventPriorityDebug, Data := lit "TEST" } ∧
      parseEvent (lit "<3>SCAN_RESULTS") =
        { Priority := EventPriorityWarning, Data := lit "SCAN_RESULTS" } :=
  ⟨(parseEvent_framed (lit "<1>TEST") 49 (by decide) (by decide) (by decide)
      (by decide)).trans (by decide),
   (parseEvent_framed (lit "<3>SCAN_RESULTS") 51 (by decide) (by decide) (by decide)
      (by decide)).trans (by decide)⟩

/-- C2 fails on `<a>x`, whose middle byte is no digit: the brackets alone make the code strip
the 3 first bytes, and the priority is the 0 that `strconv.Atoi` gives with its error. -/
theorem parseEvent_nondigit :
    parseEvent (lit "<a>x") = { Priority := 0, Data := lit "x" } ∧
      parseEvent (lit "<a>x") ≠ { Priority := -1, Data := lit "<a>x" } := by
  decide

/-- C2, amended: an event shorter than 3 bytes, or whose first byte is not `<`, or whose
third byte is not `>`, is given to the handler with priority -1 and the raw event as data. -/
theorem parseEvent_unframed (event : GoString)
    (h : event.length < 3 ∨ event[0]? ≠ some 60 ∨ event[2]? ≠ some 62) :
    parseEvent event = { Priority := -1, Data := event } := by
  by_cases hl : event.length < 3
  · exact parseEvent_short event hl
  · match event, h, hl with
    | a :: b :: c :: rest, h, hl =>
      rw [parseEvent_cons3]
      simp only [List.length_cons, List.getElem?_cons_zero, List.getElem?_cons_succ, ne_eq,
        Option.some.injEq] at h
      have h2 : ¬ (a = 60 ∧ c = 62) := by
        rintro ⟨ha, hc⟩
        rcases h with h | h | h
        · omega
        · exact h ha
        · exact h hc
      simp [h2]
    | [], _, hl => simp at hl
    | [_], _, hl => simp at hl
    | [_, _], _, hl => simp at hl

/-- C2, amended, on the bare event of the test: `SCAN`. -/
theorem parseEvent_unframed_witness :
    parseEvent (lit "SCAN") = { Priority := -1, Data := lit "SCAN" } :=
  parseEvent_unframed (lit "SCAN") (by decide)

/-- C10 fails on `<9>x`: the priority given to the handler is 9, none of the five named
priorities and not -1. -/
theorem parseEvent_priority_nine :
    (parseEvent (lit "<9>x")).Priority = 9 ∧
      (parseEvent (lit "<9>x")).Priority ∉
        [-1, EventPriorityMsgDump, EventPriorityDebug, EventPriorityInfo, EventPriorityWarning,
         EventPriorityError] := by
  decide

/-- C10, amended: the priority given to the handler is -1 or an integer from 0 to 9. -/
theorem parseEvent_priority_range (event : GoString) :
    (parseEvent event).Priority = -1 ∨
      (0 ≤ (parseEvent event).Priority ∧ (parseEvent event).Priority ≤ 9) := by
  match event with
  | [] => left; exact congrArg Event.Priority (parseEvent_short [] (by simp))
  | [a] => left; exact congrArg Event.Priority (parseEvent_short [a] (by simp))
  | [a, b] => left; exact congrArg Event.Priority (parseEvent_short [a, b] (by simp))
  | a :: b :: c :: rest =>
    rw [parseEvent_cons3]
    by_cases h : a = 60 ∧ c = 62
    · right
      rw [if_pos h]
      show 0 ≤ (Atoi (byteToString b)).1 ∧ (Atoi (byteToString b)).1 ≤ 9
      rw [Atoi_byteToString]
      split <;> omega
    · left
      simp [h]

/-! ## `SendRequest` -/

/-- C5 fails on a reply of 2049 bytes: an echoing peer sends the command of 2049 bytes back,
the write and the read go well, and the reply returned is 2048 bytes long. -/
theorem SendRequest_long_reply :
    (exampleInterface.SendRequest (.caller 1) longCommand longEchoWorld).map (fun r => r.1) =
        some (List.replicate 2048 65, none) ∧
      List.replicate 2048 (65 : Byte) ≠ longCommand := by
  constructor
  · rw [ControlInterface.request_healthy exampleInterface (.caller 1) longCommand
      longEchoWorld 2049 longCommand [] [] rfl rfl]
    simp only [Option.map_some', longCommand, List.take_replicate]
    rfl
  · intro h
    have := congrArg List.length h
    simp only [longCommand, List.length_replicate] at this
    omega

/-- C5, amended: when the write and the read of a request go well, `SendRequest` returns a nil
error and the first 2048 bytes of the datagram that the peer sent, which is the whole datagram
when it has at most 2048 bytes; the exchange is one write of the command and one read. -/
theorem SendRequest_reply (ctrlIface : ControlInterface) (ctx : Context) (cmd : GoString)
    (w : World) (wrote : Nat) (dg : GoString) (wrs : List (Race Nat)) (rds : List (Race GoString))
    (hw : w.writes = .done wrote none :: wrs) (hr : w.reads = .done dg none :: rds) :
    ctrlIface.SendRequest ctx cmd w =
        some ((dg.take 2048, none), ctrlIface,
          { w with writes := wrs, reads := rds,
                   trace := w.trace ++ [.Write ctrlIface.solicitedConn.UnixConn ctx cmd,
                                        .Read ctrlIface.solicitedConn.UnixConn ctx] }) ∧
      (dg.length ≤ 2048 → dg.take 2048 = dg) :=
  ⟨ControlInterface.request_healthy ctrlIface ctx cmd w wrote dg wrs rds hw hr,
   fun h => List.take_of_length_le h⟩

/-- C5, amended, on the first request of the test: `PING` to an echoing peer. -/
theorem SendRequest_reply_witness :
    (exampleInterface.SendRequest (.caller 1) (lit "PING") echoWorld).map (fun r => r.1) =
      some (lit "PING", none) := by
  rw [(SendRequest_reply exampleInterface (.caller 1) (lit "PING") echoWorld 4 (lit "PING")
    [] [] rfl rfl).1]
  decide

/-- C7: when the exchange of a request fails with an error that is neither
`context.DeadlineExceeded` nor `context.Canceled`, `SendRequest` returns an empty reply and
that error, the interface keeps its transport, and the world is as the exchange left it: no
close, no step of a connect, nothing but the write and the read of the exchange. -/
theorem SendRequest_other_error (ctrlIface : ControlInterface) (ctx : Context) (cmd : GoString)
    (w w1 : World) (res : GoString) (err : Error)
    (hx : ctrlIface.solicitedConn.SendRequest ctx cmd w = some ((res, some err), w1))
    (hc : isCancellation err = false) :
    ctrlIface.SendRequest ctx cmd w = some (([], some err), ctrlIface, w1) ∧
      w1.closes = w.closes ∧ w1.createTemps = w.createTemps ∧ w1.removes = w.removes ∧
      w1.dials = w.dials ∧
      (w1.trace = w.trace ++ [.Write ctrlIface.solicitedConn.UnixConn ctx cmd] ∨
        w1.trace = w.trace ++ [.Write ctrlIface.solicitedConn.UnixConn ctx cmd,
                               .Read ctrlIface.solicitedConn.UnixConn ctx]) := by
  have f := Connection.SendRequest_frame _ _ _ _ _ _ hx
  exact ⟨ControlInterface.SendRequest_other ctrlIface ctx cmd w w1 res err hx hc,
    f.2.2.2.1, f.1, f.2.1, f.2.2.1, f.2.2.2.2⟩

/-- C7 on a request whose write is refused. -/
theorem SendRequest_other_error_witness :
    (exampleInterface.SendRequest (.caller 1) (lit "PING") refusedWorld).map
        (fun r => (r.1, r.2.1, r.2.2.trace)) =
      some (([], some refusedErr), exampleInterface,
        [.Write ⟨1⟩ (.caller 1) (lit "PING")]) := by
  rw [(SendRequest_other_error exampleInterface (.caller 1) (lit "PING") refusedWorld
    { World.silent with trace := [.Write ⟨1⟩ (.caller 1) (lit "PING")] } [] refusedErr
    rfl (by decide)).1]
  rfl

/-- C4: when the exchange of a request fails with `context.DeadlineExceeded` or
`context.Canceled` and the three steps of the connect that follows go well, `SendRequest`
returns an empty reply and that error, the old transport is closed before the connect, and the
interface holds the new transport; the next request, when its write and read go well, is
written to and read from the new transport and returns the reply read there with a nil
error. -/
theorem SendRequest_recovers (ctrlIface : ControlInterface) (ctx : Context) (cmd : GoString)
    (w w1 : World) (res : GoString) (err : Error) (closeErr : Option Error)
    (cls : List (Option Error)) (name : GoString) (uc : UnixConn)
    (cts : List (Except Error GoString)) (rms : List (Option Error))
    (dls : List (Except Error UnixConn))
    (ctx2 : Context) (cmd2 : GoString) (wrote : Nat) (dg : GoString)
    (wrs : List (Race Nat)) (rds : List (Race GoString))
    (hx : ctrlIface.solicitedConn.SendRequest ctx cmd w = some ((res, some err), w1))
    (hc : isCancellation err = true)
    (hcl : w1.closes = closeErr :: cls)
    (hct : w1.createTemps = .ok name :: cts) (hrm : w1.removes = none :: rms)
    (hdl : w1.dials = .ok uc :: dls)
    (hw : w1.writes = .done wrote none :: wrs) (hr : w1.reads = .done dg none :: rds) :
    let fresh : ControlInterface := { ctrlIface with solicitedConn := ⟨uc⟩ }
    let w2 : World :=
      { w1 with
          closes := cls, createTemps := cts, removes := rms, dials := dls,
          trace := w1.trace ++ [.Close ctrlIface.solicitedConn.UnixConn] ++
            closeErr.toList.map (Action.Printf (lit "error closing connection: %s\n")) ++
            [.CreateTemp ctrlIface.tempFilePattern, .Remove name,
             .DialUnix name ctrlIface.ctrlIfacePath] }
    ctrlIface.SendRequest ctx cmd w = some (([], some err), fresh, w2) ∧
      fresh.SendRequest ctx2 cmd2 w2 =
        some ((dg.take 2048, none), fresh,
          { w2 with writes := wrs, reads := rds,
                    trace := w2.trace ++ [.Write uc ctx2 cmd2, .Read uc ctx2] }) := by
  intro fresh w2
  constructor
  · unfold ControlInterface.SendRequest
    rw [hx]
    simp only [hc, if_true]
    rw [Connection.Close_cons _ w1 closeErr cls hcl]
    cases closeErr with
    | none =>
      simp only
      rw [connect_ok _ _ _ name uc cts rms dls (by simpa using hct) (by simpa using hrm)
        (by simpa using hdl)]
      simp [fresh, w2]
    | some e =>
      simp only [World.Printf, World.record]
      rw [connect_ok _ _ _ name uc cts rms dls (by simpa using hct) (by simpa using hrm)
        (by simpa using hdl)]
      simp [fresh, w2]
  · exact ControlInterface.request_healthy fresh ctx2 cmd2 w2 wrote dg wrs rds
      (by simpa [w2] using hw) (by simpa [w2] using hr)

/-- C4 on the run of the timeout test: the deadline of `PING` passes, the client connects
socket 2, and `ECHO` is answered on socket 2. -/
theorem SendRequest_recovers_witness :
    sendTwice exampleInterface (.caller 1) (lit "PING") (lit "ECHO") timeoutWorld =
      some (([], some .DeadlineExceeded), (lit "ECHO", none),
        [.Write ⟨2⟩ (.caller 1) (lit "ECHO"), .Read ⟨2⟩ (.caller 1)]) := by
  have h := SendRequest_recovers exampleInterface (.caller 1) (lit "PING") timeoutWorld
    { timeoutWorld with
        writes := [.done 4 none], reads := [.done (lit "ECHO") none],
        trace := [.Write ⟨1⟩ (.caller 1) (lit "PING"), .Read ⟨1⟩ (.caller 1)] }
    [] .DeadlineExceeded none [] (lit "/tmp/wpa_supplicant-go-ctrl2") ⟨2⟩ [] [] []
    (.caller 1) (lit "ECHO") 4 (lit "ECHO") [] [] rfl (by decide) rfl rfl rfl rfl rfl rfl
  simp only at h
  unfold sendTwice
  rw [h.1]
  simp only
  rw [h.2]
  decide

/-- C8 fails on a run where the daemon is gone at the reconnect: the second request returns
the error of its write on the closed socket, which is not the error of the dial, and makes
no call but that write. -/
theorem SendRequest_after_lost_daemon :
    sendTwice exampleInterface (.caller 1) (lit "PING") (lit "ECHO") lostDaemonWorld =
        some (([], some .DeadlineExceeded), ([], some closedErr),
          [.Write ⟨1⟩ (.caller 1) (lit "ECHO")]) ∧
      closedErr ≠ dialErr := by
  decide

/-- C8, amended: when the exchange of a request fails with `context.DeadlineExceeded` or
`context.Canceled` and the connect that follows the close fails too, `SendRequest` returns an
empty reply and the error of the exchange, and the interface keeps the old, closed transport.
The next request runs its exchange on that transport: a failure of it outside the
cancellation class is returned as it is with no connect, and whatever the request returns, its
error is the error of that exchange. -/
theorem SendRequest_reconnect_fails (ctrlIface : ControlInterface) (ctx : Context)
    (cmd : GoString) (w w1 w3 : World) (res : GoString) (err connErr : Error)
    (closeErr : Option Error) (cls : List (Option Error)) (ctx2 : Context) (cmd2 : GoString)
    (hx : ctrlIface.solicitedConn.SendRequest ctx cmd w = some ((res, some err), w1))
    (hc : isCancellation err = true)
    (hcl : w1.closes = closeErr :: cls)
    (hconn : connect ctrlIface.ctrlIfacePath ctrlIface.tempFilePattern
      { w1 with
          closes := cls,
          trace := w1.trace ++ [.Close ctrlIface.solicitedConn.UnixConn] ++
            closeErr.toList.map (Action.Printf (lit "error closing connection: %s\n")) } =
        some (.error connErr, w3)) :
    let w4 : World :=
      { w3 with
          trace := w3.trace ++
            closeErr.toList.map
              (fun _ => Action.Printf (lit "error opening new connection: %s\n") connErr) }
    ctrlIface.SendRequest ctx cmd w = some (([], some err), ctrlIface, w4) ∧
      Action.Close ctrlIface.solicitedConn.UnixConn ∈ w4.trace ∧
      (∀ (res2 : GoString) (err2 : Error) (w5 : World),
        ctrlIface.solicitedConn.SendRequest ctx2 cmd2 w4 = some ((res2, some err2), w5) →
        isCancellation err2 = false →
        ctrlIface.SendRequest ctx2 cmd2 w4 = some (([], some err2), ctrlIface, w5)) ∧
      (∀ (r : GoString × Option Error) (after : ControlInterface) (w6 : World),
        ctrlIface.SendRequest ctx2 cmd2 w4 = some (r, after, w6) →
        ∃ res2 w5, ctrlIface.solicitedConn.SendRequest ctx2 cmd2 w4 = some ((res2, r.2), w5)) := by
  intro w4
  refine ⟨?_, ?_, ?_, ?_⟩
  · unfold ControlInterface.SendRequest
    rw [hx]
    simp only [hc, if_true]
    rw [Connection.Close_cons _ w1 closeErr cls hcl]
    cases closeErr with
    | none =>
      simp only [Option.toList, List.map_nil, List.append_nil] at hconn
      simp only
      rw [hconn]
      simp [w4]
    | some e =>
      simp only [Option.toList, List.map_cons, List.map_nil] at hconn
      simp only [World.Printf, World.record, List.append_assoc]
      simp only [List.append_assoc] at hconn
      rw [hconn]
      simp [w4]
  · have := connect_trace _ _ _ _ _ hconn (Action.Close ctrlIface.solicitedConn.UnixConn) (by simp)
    simp [w4, this]
  · intro res2 err2 w5 hx2 hc2
    exact ControlInterface.SendRequest_other ctrlIface ctx2 cmd2 w4 w5 res2 err2 hx2 hc2
  · intro r after w6 h
    exact ControlInterface.SendRequest_error ctrlIface ctx2 cmd2 w4 r after w6 h

/-- C8, amended, on the run where the daemon is gone at the reconnect: the first request
returns the deadline error and the interface keeps socket 1. -/
theorem SendRequest_reconnect_fails_witness :
    (exampleInterface.SendRequest (.caller 1) (lit "PING") lostDaemonWorld).map
        (fun r => (r.1, r.2.1)) =
      some (([], some .DeadlineExceeded), exampleInterface) := by
  have h := SendRequest_reconnect_fails exampleInterface (.caller 1) (lit "PING")
    lostDaemonWorld
    { lostDaemonWorld with
        writes := [.done 0 (some closedErr)], reads := [],
        trace := [.Write ⟨1⟩ (.caller 1) (lit "PING"), .Read ⟨1⟩ (.caller 1)] }
    { World.silent with
        writes := [.done 0 (some closedErr)],
        trace := [.Write ⟨1⟩ (.caller 1) (lit "PING"), .Read ⟨1⟩ (.caller 1), .Close ⟨1⟩,
                  .CreateTemp (lit "wpa_supplicant-go-ctrl"),
                  .Remove (lit "/tmp/wpa_supplicant-go-ctrl2"),
                  .DialUnix (lit "/tmp/wpa_supplicant-go-ctrl2")
                    (lit "/run/wpa_supplicant/wlan0")] }
    [] .DeadlineExceeded dialErr none [] (.caller 1) (lit "ECHO") rfl (by decide) rfl rfl
  simp only at h
  rw [h.1]
  rfl

/-! ## `Listen` -/

/-- C6: when the connect and the exchange of `ATTACH` go well and the reply `r` read (the
first 2048 bytes of the datagram of the peer) is not `OK` and a newline, `Listen` returns the
error whose message is `failed to attach to events: ` and then `r`; the handler is not called,
its state is as before, and the calls are those of the connect, the write of `ATTACH`, the read
of the reply and the close of the transport. -/
theorem Listen_attach_rejected {υ : Type} (ctrlIface : ControlInterface) (ctx : Context)
    (handler : Event → υ → υ) (u : υ) (w : World) (name : GoString) (uc : UnixConn)
    (cts : List (Except Error GoString)) (rms : List (Option Error))
    (dls : List (Except Error UnixConn)) (wrote : Nat) (wrs : List (Race Nat))
    (dg : GoString) (rds : List (Race GoString)) (c : Option Error) (cls : List (Option Error))
    (hct : w.createTemps = .ok name :: cts) (hrm : w.removes = none :: rms)
    (hdl : w.dials = .ok uc :: dls)
    (hw : w.writes = .done wrote none :: wrs) (hr : w.reads = .done dg none :: rds)
    (hcl : w.closes = c :: cls) (hne : dg.take 2048 ≠ lit "OK\n") :
    ctrlIface.Listen ctx handler u w =
        some (some (.errorString (lit "failed to attach to events: " ++ dg.take 2048)), u,
          { createTemps := cts, removes := rms, dials := dls, writes := wrs, reads := rds,
            closes := cls,
            trace := w.trace ++
              [.CreateTemp ctrlIface.tempFilePattern, .Remove name,
               .DialUnix name ctrlIface.ctrlIfacePath,
               .Write uc ctx (lit "ATTACH"), .Read uc ctx, .Close uc] }) ∧
      handlerCalls
        [.CreateTemp ctrlIface.tempFilePattern, .Remove name,
         .DialUnix name ctrlIface.ctrlIfacePath,
         .Write uc ctx (lit "ATTACH"), .Read uc ctx, .Close uc] = [] := by
  refine ⟨?_, by simp [handlerCalls]⟩
  unfold ControlInterface.Listen
  rw [connect_ok _ _ w name uc cts rms dls hct hrm hdl]
  simp only
  rw [Connection.exchange_healthy ⟨uc⟩ ctx (lit "ATTACH") _ wrote dg wrs rds
    (by simpa using hw) (by simpa using hr)]
  simp only [ne_eq, hne, not_false_eq_true, if_true]
  rw [Connection.Close_cons ⟨uc⟩ _ c cls (by simpa using hcl)]
  simp [attachError]

/-- C6 on a peer that answers `ATTACH` with `FAIL` and a newline. -/
theorem Listen_attach_rejected_witness :
    (exampleInterface.Listen (.caller 1) collect [] attachRefusedWorld).map
        (fun r => (r.1, r.2.1)) =
      some (some (.errorString (lit "failed to attach to events: FAIL\n")), []) := by
  rw [(Listen_attach_rejected exampleInterface (.caller 1) collect [] attachRefusedWorld
    (lit "/tmp/wpa_supplicant-go-ctrl2") ⟨2⟩ [] [] [] 6 [] (lit "FAIL\n") [] none []
    rfl rfl rfl rfl rfl rfl (by decide)).1]
  decide

/-- C3: when the connect goes well, `ATTACH` is acknowledged with `OK` and a newline, the next
reads yield the datagrams `dgs` (each as read, that is its first 2048 bytes) and the read
after them fails with the error `e`, be it `ctx.Err()` or an error of the transport, then
`Listen` returns `e`, the state of the caller is the one that the handler makes of it when
called with the parsed datagrams in their order, and the calls of the handler on the trace are
these, in this order, and no other. -/
theorem Listen_delivers_in_order {υ : Type} (ctrlIface : ControlInterface) (ctx : Context)
    (handler : Event → υ → υ) (u : υ) (w : World) (name : GoString) (uc : UnixConn)
    (cts : List (Except Error GoString)) (rms : List (Option Error))
    (dls : List (Except Error UnixConn)) (wrote : Nat) (detach : Race Nat) (wrs : List (Race Nat))
    (dgs : List GoString) (last : Race GoString) (e : Error) (rds : List (Race GoString))
    (c : Option Error) (cls : List (Option Error))
    (hct : w.createTemps = .ok name :: cts) (hrm : w.removes = none :: rms)
    (hdl : w.dials = .ok uc :: dls)
    (hw : w.writes = .done wrote none :: detach :: wrs)
    (hr : w.reads =
      .done (lit "OK\n") none :: (dgs.map (fun d => Race.done d none) ++ last :: rds))
    (hlast : last.err = some e) (hcl : w.closes = c :: cls) :
    ∃ w2 : World,
      ctrlIface.Listen ctx handler u w =
        some (some e,
          (dgs.map fun d => parseEvent (d.take 2048)).foldl (fun u ev => handler ev u) u, w2) ∧
      handlerCalls w2.trace =
        handlerCalls w.trace ++ dgs.map fun d => parseEvent (d.take 2048) := by
  refine ⟨_, Listen_run ctrlIface ctx handler u w name uc cts rms dls wrote detach wrs dgs last e
    rds c cls hct hrm hdl hw hr hlast hcl, ?_⟩
  have hmid : ∀ l : List GoString,
      handlerCalls (l.flatMap fun d => [.Read uc ctx, .Handler (parseEvent (d.take 2048))]) =
        l.map fun d => parseEvent (d.take 2048) := by
    intro l
    induction l with
    | nil => rfl
    | cons d l ih =>
      simp only [handlerCalls] at ih
      simp [handlerCalls, ih]
  have hlog : handlerCalls (detach.err.toList.map
      (Action.Printf (lit "error sending DETACH request: %s\n"))) = [] := by
    cases detach.err <;> simp [handlerCalls]
  have happ : ∀ a b : List Action, handlerCalls (a ++ b) = handlerCalls a ++ handlerCalls b := by
    intro a b
    simp [handlerCalls]
  simp only [happ, hmid, hlog]
  simp [handlerCalls]

/-- C3 on the run of the test: three events, then the context is cancelled. -/
theorem Listen_delivers_in_order_witness :
    (exampleInterface.Listen (.caller 1) collect [] eventsWorld).map (fun r => (r.1, r.2.1)) =
      some (some .Canceled,
        [{ Priority := EventPriorityDebug, Data := lit "TEST" },
         { Priority := EventPriorityWarning, Data := lit "SCAN_RESULTS" },
         { Priority := -1, Data := lit "SCAN" }]) := by
  obtain ⟨w2, h, -⟩ := Listen_delivers_in_order exampleInterface (.caller 1) collect []
    eventsWorld (lit "/tmp/wpa_supplicant-go-ctrl2") ⟨2⟩ [] [] [] 6 (.done 6 none) []
    [lit "<1>TEST", lit "<3>SCAN_RESULTS", lit "SCAN"] (.ctxDone .Canceled) .Canceled [] none []
    rfl rfl rfl rfl rfl rfl rfl
  rw [h]
  simp only [Option.map_some']
  decide

/-- C9: in every run of `Listen` that reaches the loop and whose loop ends with the read
error `e`, the calls after the read that failed are one write of `DETACH` on the transport of
the loop with `context.Background()`, the log of its error if it failed, and then the close of
that transport; no other call of the run writes `DETACH`; and `Listen` returns `e` whatever
the outcomes `detach` of that write and `c` of the close are. -/
theorem Listen_detaches {υ : Type} (ctrlIface : ControlInterface) (ctx : Context)
    (handler : Event → υ → υ) (u : υ) (w : World) (name : GoString) (uc : UnixConn)
    (cts : List (Except Error GoString)) (rms : List (Option Error))
    (dls : List (Except Error UnixConn)) (wrote : Nat) (detach : Race Nat) (wrs : List (Race Nat))
    (dgs : List GoString) (last : Race GoString) (e : Error) (rds : List (Race GoString))
    (c : Option Error) (cls : List (Option Error))
    (hct : w.createTemps = .ok name :: cts) (hrm : w.removes = none :: rms)
    (hdl : w.dials = .ok uc :: dls)
    (hw : w.writes = .done wrote none :: detach :: wrs)
    (hr : w.reads =
      .done (lit "OK\n") none :: (dgs.map (fun d => Race.done d none) ++ last :: rds))
    (hlast : last.err = some e) (hcl : w.closes = c :: cls) :
    ∃ (u2 : υ) (w2 : World) (before : List Action),
      ctrlIface.Listen ctx handler u w = some (some e, u2, w2) ∧
      w2.trace = w.trace ++ before ++
        [.Read uc ctx, .Write uc .Background (lit "DETACH")] ++
        detach.err.toList.map (Action.Printf (lit "error sending DETACH request: %s\n")) ++
        [.Close uc] ∧
      before.head? = some (.CreateTemp ctrlIface.tempFilePattern) ∧
      before.countP isDetachWrite = 0 ∧
      (w2.trace.drop w.trace.length).countP isDetachWrite = 1 := by
  have hmid : ∀ l : List GoString,
      (l.flatMap fun d =>
        [Action.Read uc ctx, Action.Handler (parseEvent (d.take 2048))]).countP isDetachWrite
        = 0 := by
    intro l
    induction l with
    | nil => rfl
    | cons d l ih => simp [List.countP_cons, isDetachWrite, ih]
  have hlog : (detach.err.toList.map
      (Action.Printf (lit "error sending DETACH request: %s\n"))).countP isDetachWrite = 0 := by
    cases detach.err <;> simp [List.countP_cons, isDetachWrite]
  have hdet : isDetachWrite (.Write uc .Background (lit "DETACH")) = true := by
    simp [isDetachWrite]
  have hpre :
      ([Action.CreateTemp ctrlIface.tempFilePattern, Action.Remove name,
        Action.DialUnix name ctrlIface.ctrlIfacePath,
        Action.Write uc ctx (lit "ATTACH"), Action.Read uc ctx] ++
        (dgs.flatMap fun d =>
          [Action.Read uc ctx, Action.Handler (parseEvent (d.take 2048))])).countP isDetachWrite
        = 0 := by
    have hne : ¬ lit "ATTACH" = lit "DETACH" := by decide
    rw [List.countP_append, hmid]
    simp [List.countP_cons, isDetachWrite, hne]
  refine ⟨_, _,
    [Action.CreateTemp ctrlIface.tempFilePattern, Action.Remove name,
     Action.DialUnix name ctrlIface.ctrlIfacePath,
     Action.Write uc ctx (lit "ATTACH"), Action.Read uc ctx] ++
    (dgs.flatMap fun d => [Action.Read uc ctx, Action.Handler (parseEvent (d.take 2048))]),
    Listen_run ctrlIface ctx handler u w name uc cts rms dls wrote detach wrs dgs last e
      rds c cls hct hrm hdl hw hr hlast hcl, ?_, ?_, hpre, ?_⟩
  · simp
  · simp
  · simp only [List.append_assoc, List.drop_left]
    rw [← List.append_assoc, List.countP_append, hpre, List.countP_append, List.countP_append,
      hlog]
    simp [List.countP_cons, hdet, isDetachWrite]

/-- C9 on a run where the write of `DETACH` and the close both fail: `Listen` still returns
the cancellation that ended the loop, and its last calls are the read that failed, the write
of `DETACH`, the log of its error and the close. -/
theorem Listen_detaches_witness :
    ∃ (received : List Event) (w2 : World) (before : List Action),
      exampleInterface.Listen (.caller 1) collect [] failingDetachWorld =
        some (some .Canceled, received, w2) ∧
      w2.trace = before ++
        [.Read ⟨2⟩ (.caller 1), .Write ⟨2⟩ .Background (lit "DETACH"),
         .Printf (lit "error sending DETACH request: %s\n") closedErr, .Close ⟨2⟩] := by
  obtain ⟨u2, w2, before, h, htr, -, -, -⟩ := Listen_detaches exampleInterface (.caller 1)
    collect [] failingDetachWorld (lit "/tmp/wpa_supplicant-go-ctrl2") ⟨2⟩ [] [] [] 6
    (.done 0 (some closedErr)) []
    [lit "<1>TEST", lit "<3>SCAN_RESULTS", lit "SCAN"] (.ctxDone .Canceled) .Canceled []
    (some closedErr) [] rfl rfl rfl rfl rfl rfl rfl
  exact ⟨u2, w2, failingDetachWorld.trace ++ before, h, by simpa [Race.err] using htr⟩

end WpaSupplicant
